import Mathlib

/-!
Shallow embedding of `SecondaryTableController.cpp` (secondary routing-table
pool of the netd daemon).

The controller keeps a fixed-size array of slots, one per tracked interface
(`mInterfaceTable` / `mInterfaceRuleCount`); we model it as a `List Slot`,
whose length plays the role of the compile-time constant `INTERFACES_TRACKED`
(the header defining it is not part of the sources; the spec calls it a
tunable constant, so the model is parametric in the pool size).

External effects (`runCmd` / `android_fork_execvp`, `execIptables`, the
`UidMarkMap` collaborator) are modelled by an oracle `ExecEnv` giving the
exit status of every command, and each operation returns, besides its C
return value and the new pool state, the list of external commands it
issued and the response message / errno it produced.
-/

namespace SecondaryTable

/-- `IFNAMSIZ` from `<net/if.h>`: kernel interface-name buffer size. -/
def IFNAMSIZ : Nat := 16

/-- Modelled from the spec: `BASE_TABLE_NUMBER` is declared in
`SecondaryTableController.h`, which is not among the sources; the spec
describes it as a tunable base added to the slot index to obtain the kernel
table number and the fwmark value. The concrete value is irrelevant to the
claims; we fix the value used by the original system. -/
def BASE_TABLE_NUMBER : Int := 60

/-- `EINVAL` errno value. -/
def EINVAL : Int := 22

/-- `ENODEV` errno value. -/
def ENODEV : Int := 19

/-- `IP_PATH` from `NetdConstants.h` (not among the sources); only its
identity as the first argv entry matters. -/
def IP_PATH : String := "ip"

/-- The `action` argument: the C code passes the strings `ADD` / `DEL` and
branches on `strcmp(action, ADD) == 0`. -/
inductive Action where
  | ADD
  | DEL
deriving DecidableEq, Repr

/-- The string the C macros `ADD` / `DEL` expand to. -/
def actionStr : Action → String
  | .ADD => "add"
  | .DEL => "del"

/-- One slot of the pool: `mInterfaceTable[i]` (a C string, `""` means
unoccupied) together with `mInterfaceRuleCount[i]` (a C `int`). -/
structure Slot where
  name : String
  ruleCount : Int
deriving DecidableEq, Repr

/-- Default slot used for out-of-range reads. -/
def dSlot : Slot := ⟨"", 0⟩

/-- `strncmp(a, b, n) == 0` for C strings without embedded nulls: the
comparison stops at the first difference, at a null byte present in both, or
after `n` bytes; it reports equality exactly when the first `n` characters
(or the whole strings, when shorter) coincide. -/
def cstrEq (a b : String) (n : Nat) : Bool :=
  a.take n == b.take n

/-- Loop body of `findTableNumber`: scan the slots in order, returning the
offset of the first one whose stored name matches `iface` through the final
null (`strncmp(iface, mInterfaceTable[i], IFNAMSIZ + 1) == 0`). -/
def findLoop (iface : String) : List Slot → Option Nat
  | [] => none
  | sl :: rest =>
      if cstrEq iface sl.name (IFNAMSIZ + 1) then some 0
      else (findLoop iface rest).map (· + 1)

/-- `SecondaryTableController::findTableNumber`: linear scan; `none` models
the C return value `-1`. -/
def findTableNumber (s : List Slot) (iface : String) : Option Nat :=
  findLoop iface s

/-- Apply `f` to slot `i`, leaving the rest unchanged. -/
def updateSlot (s : List Slot) (i : Nat) (f : Slot → Slot) : List Slot :=
  s.set i (f (s.getD i dSlot))

/-- `SecondaryTableController::modifyRuleCount`: on `ADD` increment the
slot's count; otherwise decrement, and when the result falls below 1 clamp
it to 0 and clear the slot's name (`mInterfaceTable[tableIndex][0] = 0`). -/
def modifyRuleCount (s : List Slot) (i : Nat) : Action → List Slot
  | .ADD => s.set i { s.getD i dSlot with
      ruleCount := (s.getD i dSlot).ruleCount + 1 }
  | .DEL =>
      if (s.getD i dSlot).ruleCount - 1 < 1 then s.set i ⟨"", 0⟩
      else s.set i { s.getD i dSlot with
        ruleCount := (s.getD i dSlot).ruleCount - 1 }

/-- The allocation step shared by `addRoute` and `setFwmarkRule`:
`strncpy(mInterfaceTable[tableIndex], iface, IFNAMSIZ)` followed by forced
null termination `mInterfaceTable[tableIndex][IFNAMSIZ] = 0`, i.e. the slot
stores the first `IFNAMSIZ` characters of `iface`. -/
def setName (s : List Slot) (i : Nat) (iface : String) : List Slot :=
  updateSlot s i fun sl => { sl with name := iface.take IFNAMSIZ }

/-- The `tableIndex_str` buffer: decimal rendering of
`tableIndex + BASE_TABLE_NUMBER`. -/
def tableIndexStr (i : Nat) : String :=
  toString ((i : Int) + BASE_TABLE_NUMBER)

/-- Which iptables rule-sets `execIptables` targets (`V4` or `V4V6`). -/
inductive IptFamily where
  | V4
  | V4V6
deriving DecidableEq, Repr

/-- An external command issued by the controller: either an `ip` invocation
through `runCmd` (full argv), or an `execIptables` invocation (family plus
arguments). -/
inductive Cmd where
  | ip (argv : List String)
  | ipt (family : IptFamily) (args : List String)
deriving DecidableEq, Repr

/-- Oracle for the out-of-scope collaborators: exit status of `runCmd`
(zero = success), exit status of `execIptables`, and the boolean results of
`UidMarkMap::add` / `UidMarkMap::remove`. -/
structure ExecEnv where
  run : List String → Int
  iptables : IptFamily → List String → Int
  uidMapAdd : Int → Int → Int → Bool
  uidMapRemove : Int → Int → Int → Bool

/-- Result of one controller operation: the C return value, the pool state
after the call, the external commands issued (in order), the message sent
to the client via `cli->sendMsg` (when any), and the errno value the
operation set (when any). -/
structure OpResult where
  ret : Int
  state : List Slot
  cmds : List Cmd
  msg : Option String := none
  eno : Option Int := none
deriving DecidableEq, Repr

/-- `SecondaryTableController::modifyRoute`. Builds
`ip route <action> <dest>/<prefix> [via <gateway>] dev <iface> table <N>`
(the `via` clause omitted when `gateway` is `"::"`), runs it, and on failure
reports `OperationFailed` with errno `ENODEV`. On success the rule count is
updated twice: once by the block inlined at lines 130–137 of the source
(textually identical to the body of `modifyRuleCount`) and once more by the
call `modifyRuleCount(tableIndex, action)` at line 138. -/
def modifyRoute (env : ExecEnv) (action : Action) (iface dest : String)
    (pfx : Int) (gateway : String) (tableIndex : Nat) (s : List Slot) :
    OpResult :=
  let destStr := dest ++ "/" ++ toString pfx
  let tStr := tableIndexStr tableIndex
  let argv :=
    if gateway == "::" then
      [IP_PATH, "route", actionStr action, destStr, "dev", iface, "table", tStr]
    else
      [IP_PATH, "route", actionStr action, destStr, "via", gateway, "dev",
        iface, "table", tStr]
  let ret := env.run argv
  if ret ≠ 0 then
    { ret := -1, state := s, cmds := [Cmd.ip argv],
      msg := some "ip route modification failed", eno := some ENODEV }
  else
    { ret := 0,
      state := modifyRuleCount (modifyRuleCount s tableIndex action)
        tableIndex action,
      cmds := [Cmd.ip argv], msg := some "Route modified" }

/-- `SecondaryTableController::addRoute`: resolve the interface's slot,
allocating a free one (empty-string lookup) when untracked; with the pool
exhausted fail with `OperationFailed` / `ENODEV`; otherwise delegate to
`modifyRoute` with action `ADD`. -/
def addRoute (env : ExecEnv) (iface dest : String) (pfx : Int)
    (gateway : String) (s : List Slot) : OpResult :=
  match findTableNumber s iface with
  | some i => modifyRoute env .ADD iface dest pfx gateway i s
  | none =>
    match findTableNumber s "" with
    | none =>
        { ret := -1, state := s, cmds := [],
          msg := some "Max number NATed", eno := some ENODEV }
    | some i => modifyRoute env .ADD iface dest pfx gateway i (setName s i iface)

/-- `SecondaryTableController::removeRoute`: requires the interface to be
tracked already; otherwise fail with "Interface not found" / `ENODEV`. -/
def removeRoute (env : ExecEnv) (iface dest : String) (pfx : Int)
    (gateway : String) (s : List Slot) : OpResult :=
  match findTableNumber s iface with
  | none =>
      { ret := -1, state := s, cmds := [],
        msg := some "Interface not found", eno := some ENODEV }
  | some i => modifyRoute env .DEL iface dest pfx gateway i s

/-- `SecondaryTableController::verifyTableIndex`: `-1` when the index is out
of range or the slot unoccupied, `0` when valid. -/
def verifyTableIndex (s : List Slot) (tableIndex : Int) : Int :=
  if tableIndex < 0 ∨ (s.length : Int) ≤ tableIndex ∨
      (s.getD tableIndex.toNat dSlot).name = "" then -1
  else 0

/-- `SecondaryTableController::getVersion`: `-6` when the address contains a
colon, `-4` otherwise. -/
def getVersion (addr : String) : String :=
  if addr.contains ':' then "-6" else "-4"

/-- `SecondaryTableController::modifyFromRule`: requires a valid occupied
index; runs `ip -4|-6 rule <action> from <addr> table <N>` and updates the
rule count only on success. -/
def modifyFromRule (env : ExecEnv) (tableIndex : Int) (action : Action)
    (addr : String) (s : List Slot) : OpResult :=
  if verifyTableIndex s tableIndex ≠ 0 then
    { ret := -1, state := s, cmds := [] }
  else
    let argv := [IP_PATH, getVersion addr, "rule", actionStr action, "from",
      addr, "table", tableIndexStr tableIndex.toNat]
    if env.run argv ≠ 0 then
      { ret := -1, state := s, cmds := [Cmd.ip argv] }
    else
      { ret := 0, state := modifyRuleCount s tableIndex.toNat action,
        cmds := [Cmd.ip argv] }

/-- `SecondaryTableController::modifyLocalRoute`: requires a valid occupied
index; updates the rule count *before* running
`ip route <action> <addr> dev <iface> table <N>` (the source comments that
some deletions will fail because the interface is already gone), and
returns the command's exit status. -/
def modifyLocalRoute (env : ExecEnv) (tableIndex : Int) (action : Action)
    (iface addr : String) (s : List Slot) : OpResult :=
  if verifyTableIndex s tableIndex ≠ 0 then
    { ret := -1, state := s, cmds := [] }
  else
    let s1 := modifyRuleCount s tableIndex.toNat action
    let argv := [IP_PATH, "route", actionStr action, addr, "dev", iface,
      "table", tableIndexStr tableIndex.toNat]
    { ret := env.run argv, state := s1, cmds := [Cmd.ip argv] }

/-- `SecondaryTableController::setFwmarkRule`: resolve or allocate a slot,
run `ip rule <add|del> fwmark <N> table <N>`, and on its success install or
remove the IPv4-only masquerade rule via `execIptables`. The rule count is
never touched on this path. -/
def setFwmarkRule (env : ExecEnv) (iface : String) (add : Bool)
    (s : List Slot) : OpResult :=
  let alloc : Option (Nat × List Slot) :=
    match findTableNumber s iface with
    | some i => some (i, s)
    | none =>
      match findTableNumber s "" with
      | none => none
      | some i => some (i, setName s i iface)
  match alloc with
  | none => { ret := -1, state := s, cmds := [], eno := some ENODEV }
  | some (i, s1) =>
    let tStr := tableIndexStr i
    let argv := [IP_PATH, "rule", if add then "add" else "del", "fwmark",
      tStr, "table", tStr]
    let ret := env.run argv
    if ret ≠ 0 then
      { ret := ret, state := s1, cmds := [Cmd.ip argv] }
    else
      let iptArgs := ["-t", "nat", if add then "-A" else "-D",
        "st_nat_POSTROUTING", "-o", iface, "-m", "mark", "--mark", tStr,
        "-j", "MASQUERADE"]
      { ret := env.iptables .V4 iptArgs, state := s1,
        cmds := [Cmd.ip argv, Cmd.ipt .V4 iptArgs] }

/-- `SecondaryTableController::addFwmarkRule`. -/
def addFwmarkRule (env : ExecEnv) (iface : String) (s : List Slot) :
    OpResult :=
  setFwmarkRule env iface true s

/-- `SecondaryTableController::removeFwmarkRule`. -/
def removeFwmarkRule (env : ExecEnv) (iface : String) (s : List Slot) :
    OpResult :=
  setFwmarkRule env iface false s

/-- `SecondaryTableController::setUidRule`: requires the interface to be
tracked (errno `EINVAL` otherwise, no allocation); delegates the range to
`UidMarkMap::add` / `remove` with the slot's mark (errno `EINVAL` on map
failure, no firewall command); on map success installs or removes the
single mangle/OUTPUT mark-setting rule in both rule-sets. -/
def setUidRule (env : ExecEnv) (iface : String) (uidStart uidEnd : Int)
    (add : Bool) (s : List Slot) : OpResult :=
  match findTableNumber s iface with
  | none => { ret := -1, state := s, cmds := [], eno := some EINVAL }
  | some i =>
    let mark := (i : Int) + BASE_TABLE_NUMBER
    let ok := if add then env.uidMapAdd uidStart uidEnd mark
      else env.uidMapRemove uidStart uidEnd mark
    if !ok then { ret := -1, state := s, cmds := [], eno := some EINVAL }
    else
      let args := ["-t", "mangle", if add then "-A" else "-D",
        "st_mangle_OUTPUT", "-m", "owner", "--uid-owner",
        toString uidStart ++ "-" ++ toString uidEnd, "-j", "MARK",
        "--set-mark", toString mark]
      { ret := env.iptables .V4V6 args, state := s,
        cmds := [Cmd.ipt .V4V6 args] }

/-- `SecondaryTableController::addUidRule`. -/
def addUidRule (env : ExecEnv) (iface : String) (uidStart uidEnd : Int)
    (s : List Slot) : OpResult :=
  setUidRule env iface uidStart uidEnd true s

/-- `SecondaryTableController::removeUidRule`. -/
def removeUidRule (env : ExecEnv) (iface : String) (uidStart uidEnd : Int)
    (s : List Slot) : OpResult :=
  setUidRule env iface uidStart uidEnd false s

/-- The constructor's initial pool: every slot unoccupied with count 0. -/
def initState (n : Nat) : List Slot :=
  List.replicate n dSlot

/-- All rule counts are non-negative. -/
def NonNeg (s : List Slot) : Prop :=
  ∀ sl ∈ s, 0 ≤ sl.ruleCount

/-- The one-directional occupancy invariant: an unoccupied (empty-named)
slot carries no rule count. -/
def NamedInv (s : List Slot) : Prop :=
  ∀ sl ∈ s, sl.name = "" → sl.ruleCount = 0

/-- The full occupancy invariant claimed by the spec: a slot's name is
empty iff its rule count is zero. -/
def FullInv (s : List Slot) : Prop :=
  ∀ sl ∈ s, sl.name = "" ↔ sl.ruleCount = 0

instance (s : List Slot) : Decidable (NonNeg s) := by
  unfold NonNeg; infer_instance

instance (s : List Slot) : Decidable (NamedInv s) := by
  unfold NamedInv; infer_instance

instance (s : List Slot) : Decidable (FullInv s) := by
  unfold FullInv; infer_instance

/-- A sequence of bare rule-count operations on the pool. -/
def applyCountOps (s : List Slot) (ops : List (Nat × Action)) : List Slot :=
  ops.foldl (fun st p => modifyRuleCount st p.1 p.2) s

/-- An execution oracle whose commands all succeed and whose uid-map calls
all succeed. -/
def envOK : ExecEnv :=
  { run := fun _ => 0, iptables := fun _ _ => 0,
    uidMapAdd := fun _ _ _ => true, uidMapRemove := fun _ _ _ => true }

/-- An execution oracle whose external commands all fail (exit status 1)
and whose uid-map calls all report failure. -/
def envFail : ExecEnv :=
  { run := fun _ => 1, iptables := fun _ _ => 1,
    uidMapAdd := fun _ _ _ => false, uidMapRemove := fun _ _ _ => false }

/-! ### Basic list and string facts used throughout -/

theorem Slot.name_mk (a : String) (c : Int) : (Slot.mk a c).name = a := rfl

theorem getD_mem_or_default {α : Type} (l : List α) (i : Nat) (d : α) :
    l.getD i d ∈ l ∨ l.getD i d = d := by
  induction l generalizing i with
  | nil => right; rfl
  | cons a t ih =>
    cases i with
    | zero => left; simp
    | succ n =>
      rcases ih n with h | h
      · left; simpa using Or.inr h
      · right; simpa using h

theorem getD_eq_default_of_le {α : Type} (l : List α) (i : Nat) (d : α)
    (h : l.length ≤ i) : l.getD i d = d := by
  induction l generalizing i with
  | nil => rfl
  | cons a t ih =>
    cases i with
    | zero => simp at h
    | succ n => simpa using ih n (by simpa using h)

theorem getD_mem_of_lt {α : Type} (l : List α) (i : Nat) (d : α)
    (h : i < l.length) : l.getD i d ∈ l := by
  induction l generalizing i with
  | nil => simp at h
  | cons a t ih =>
    cases i with
    | zero => simp
    | succ n => simpa using Or.inr (ih n (by simpa using h))

theorem getD_set_self {α : Type} (l : List α) (i : Nat) (b d : α)
    (h : i < l.length) : (l.set i b).getD i d = b := by
  induction l generalizing i with
  | nil => simp at h
  | cons a t ih =>
    cases i with
    | zero => rfl
    | succ n => simpa using ih n (by simpa using h)

theorem getD_set_ne {α : Type} (l : List α) (i k : Nat) (b d : α)
    (h : k ≠ i) : (l.set i b).getD k d = l.getD k d := by
  induction l generalizing i k with
  | nil => rfl
  | cons a t ih =>
    cases i with
    | zero => cases k with
      | zero => exact absurd rfl h
      | succ m => rfl
    | succ n =>
      cases k with
      | zero => rfl
      | succ m => simpa using ih n m (fun e => h (by simpa using e))

theorem take_succ_eq_empty_iff (s : String) (n : Nat) :
    s.take (n + 1) = "" ↔ s = "" := by
  simp [String.ext_iff, List.take_eq_nil_iff]

theorem cstrEq_iff (a b : String) (n : Nat) :
    cstrEq a b n = true ↔ a.take n = b.take n := by
  simp [cstrEq]

theorem cstrEq_empty_iff (b : String) :
    cstrEq "" b (IFNAMSIZ + 1) = true ↔ b = "" := by
  rw [cstrEq_iff]
  constructor
  · intro h
    have : b.take (IFNAMSIZ + 1) = "" := by
      rw [← h]; rfl
    exact (take_succ_eq_empty_iff b IFNAMSIZ).mp this
  · intro h; subst h; rfl

theorem cstrEq_nonempty (a b : String) (ha : a ≠ "")
    (h : cstrEq a b (IFNAMSIZ + 1) = true) : b ≠ "" := by
  intro hb
  subst hb
  rw [cstrEq_iff] at h
  have : a.take (IFNAMSIZ + 1) = "" := by rw [h]; rfl
  exact ha ((take_succ_eq_empty_iff a IFNAMSIZ).mp this)

/-! ### Characterizations of the linear scan -/

theorem findLoop_eq_none_iff (iface : String) (s : List Slot) :
    findLoop iface s = none ↔
      ∀ sl ∈ s, cstrEq iface sl.name (IFNAMSIZ + 1) = false := by
  induction s with
  | nil => simp [findLoop]
  | cons sl rest ih =>
    by_cases hm : cstrEq iface sl.name (IFNAMSIZ + 1) = true
    · simp [findLoop, hm]
    · simp only [findLoop, if_neg hm, Option.map_eq_none', ih,
        List.mem_cons]
      constructor
      · intro h x hx
        rcases hx with hx | hx
        · subst hx; exact Bool.eq_false_iff.mpr hm
        · exact h x hx
      · intro h x hx
        exact h x (Or.inr hx)

theorem findLoop_eq_some_iff (iface : String) (s : List Slot) (i : Nat) :
    findLoop iface s = some i ↔
      i < s.length ∧
        cstrEq iface ((s.getD i dSlot).name) (IFNAMSIZ + 1) = true ∧
        ∀ j, j < i → cstrEq iface ((s.getD j dSlot).name) (IFNAMSIZ + 1) = false := by
  induction s generalizing i with
  | nil => simp [findLoop]
  | cons sl rest ih =>
    by_cases hm : cstrEq iface sl.name (IFNAMSIZ + 1) = true
    · simp only [findLoop, if_pos hm]
      constructor
      · intro h
        have hi : i = 0 := by
          cases h; rfl
        subst hi
        exact ⟨by simp, by simpa using hm, by omega⟩
      · rintro ⟨-, -, hmin⟩
        cases i with
        | zero => rfl
        | succ n =>
          have := hmin 0 (Nat.succ_pos n)
          simp only [List.getD_cons_zero] at this
          rw [hm] at this
          cases this
    · simp only [findLoop, if_neg hm]
      cases i with
      | zero =>
        constructor
        · intro h
          rcases Option.map_eq_some'.mp h with ⟨a, -, ha⟩
          omega
        · rintro ⟨-, hmatch, -⟩
          simp only [List.getD_cons_zero] at hmatch
          exact absurd hmatch hm
      | succ n =>
        constructor
        · intro h
          rcases Option.map_eq_some'.mp h with ⟨a, ha, hae⟩
          rw [show a = n by omega] at ha
          rcases (ih n).mp ha with ⟨hlen, hmatch, hmin⟩
          refine ⟨by simpa using hlen, by simpa using hmatch, ?_⟩
          intro j hj
          cases j with
          | zero => simpa using Bool.eq_false_iff.mpr hm
          | succ m => simpa using hmin m (by omega)
        · rintro ⟨hlen, hmatch, hmin⟩
          have : findLoop iface rest = some n := by
            refine (ih n).mpr ⟨by simpa using hlen, by simpa using hmatch, ?_⟩
            intro m hm'
            simpa using hmin (m + 1) (by omega)
          rw [Option.map_eq_some']
          exact ⟨n, this, rfl⟩

theorem findLoop_congr_names (iface : String) {s t : List Slot}
    (h : s.map Slot.name = t.map Slot.name) :
    findLoop iface s = findLoop iface t := by
  induction s generalizing t with
  | nil =>
    cases t with
    | nil => rfl
    | cons b t => simp at h
  | cons a s ih =>
    cases t with
    | nil => simp at h
    | cons b t =>
      simp only [List.map_cons, List.cons.injEq] at h
      obtain ⟨h1, h2⟩ := h
      simp only [findLoop, h1, ih h2]

/-! ### Facts about the pool mutators -/

theorem map_name_set_count (s : List Slot) (i : Nat) (b : Slot)
    (h : b.name = (s.getD i dSlot).name) :
    (s.set i b).map Slot.name = s.map Slot.name := by
  induction s generalizing i with
  | nil => rfl
  | cons a t ih =>
    cases i with
    | zero => simp_all
    | succ n => simpa using ih n (by simpa using h)

theorem map_count_set_name (s : List Slot) (i : Nat) (b : Slot)
    (h : b.ruleCount = (s.getD i dSlot).ruleCount) :
    (s.set i b).map Slot.ruleCount = s.map Slot.ruleCount := by
  induction s generalizing i with
  | nil => rfl
  | cons a t ih =>
    cases i with
    | zero => simp_all
    | succ n => simpa using ih n (by simpa using h)

theorem modifyRuleCount_add_map_name (s : List Slot) (i : Nat) :
    (modifyRuleCount s i .ADD).map Slot.name = s.map Slot.name :=
  map_name_set_count s i _ rfl

theorem setName_map_count (s : List Slot) (i : Nat) (iface : String) :
    (setName s i iface).map Slot.ruleCount = s.map Slot.ruleCount :=
  map_count_set_name s i _ rfl

theorem modifyRuleCount_add_getD (s : List Slot) (i : Nat)
    (h : i < s.length) :
    (modifyRuleCount s i .ADD).getD i dSlot =
      { s.getD i dSlot with ruleCount := (s.getD i dSlot).ruleCount + 1 } := by
  simp only [modifyRuleCount]
  exact getD_set_self s i _ dSlot h

theorem modifyRuleCount_del_clamp (s : List Slot) (i : Nat)
    (h : (s.getD i dSlot).ruleCount ≤ 1) :
    modifyRuleCount s i .DEL = s.set i ⟨"", 0⟩ := by
  simp only [modifyRuleCount]
  rw [if_pos (by omega)]

/-! ### Invariant preservation at the slot level -/

theorem namedInv_set {s : List Slot} {b : Slot} {i : Nat} (h : NamedInv s)
    (hb : b.name = "" → b.ruleCount = 0) : NamedInv (s.set i b) := by
  intro sl hsl
  rcases List.mem_or_eq_of_mem_set hsl with hmem | heq
  · exact h sl hmem
  · subst heq; exact hb

theorem nonNeg_set {s : List Slot} {b : Slot} {i : Nat} (h : NonNeg s)
    (hb : 0 ≤ b.ruleCount) : NonNeg (s.set i b) := by
  intro sl hsl
  rcases List.mem_or_eq_of_mem_set hsl with hmem | heq
  · exact h sl hmem
  · subst heq; exact hb

theorem getD_count_eq_zero_of_namedInv {s : List Slot} {i : Nat}
    (h : NamedInv s) (hn : (s.getD i dSlot).name = "") :
    (s.getD i dSlot).ruleCount = 0 := by
  rcases getD_mem_or_default s i dSlot with hmem | heq
  · exact h _ hmem hn
  · rw [heq]; rfl

theorem getD_count_nonneg {s : List Slot} {i : Nat} (h : NonNeg s) :
    0 ≤ (s.getD i dSlot).ruleCount := by
  rcases getD_mem_or_default s i dSlot with hmem | heq
  · exact h _ hmem
  · rw [heq]; exact le_refl 0

theorem take_IFNAMSIZ_ne_empty {iface : String} (hif : iface ≠ "") :
    iface.take IFNAMSIZ ≠ "" := by
  intro hname
  apply hif
  have h16 : IFNAMSIZ = 15 + 1 := rfl
  rw [h16] at hname
  exact (take_succ_eq_empty_iff iface 15).mp hname

theorem namedInv_modifyRuleCount_del {s : List Slot} (i : Nat)
    (h : NamedInv s) : NamedInv (modifyRuleCount s i .DEL) := by
  simp only [modifyRuleCount]
  by_cases hc : (s.getD i dSlot).ruleCount - 1 < 1
  · rw [if_pos hc]
    exact namedInv_set h (fun _ => rfl)
  · rw [if_neg hc]
    refine namedInv_set h ?_
    intro hname
    have := getD_count_eq_zero_of_namedInv h hname
    omega

theorem namedInv_modifyRuleCount_add {s : List Slot} (i : Nat)
    (h : NamedInv s) (hn : (s.getD i dSlot).name ≠ "") :
    NamedInv (modifyRuleCount s i .ADD) := by
  simp only [modifyRuleCount]
  exact namedInv_set h (fun hname => absurd hname hn)

theorem namedInv_setName {s : List Slot} (i : Nat) {iface : String}
    (h : NamedInv s) (hif : iface ≠ "") : NamedInv (setName s i iface) := by
  simp only [setName, updateSlot]
  refine namedInv_set h ?_
  intro hname
  rw [Slot.name_mk] at hname
  exact absurd hname (take_IFNAMSIZ_ne_empty hif)

theorem nonNeg_modifyRuleCount {s : List Slot} (i : Nat) (action : Action)
    (h : NonNeg s) : NonNeg (modifyRuleCount s i action) := by
  cases action with
  | ADD =>
    simp only [modifyRuleCount]
    refine nonNeg_set h ?_
    show 0 ≤ (s.getD i dSlot).ruleCount + 1
    have := getD_count_nonneg (i := i) h
    omega
  | DEL =>
    simp only [modifyRuleCount]
    by_cases hc : (s.getD i dSlot).ruleCount - 1 < 1
    · rw [if_pos hc]
      exact nonNeg_set h (by norm_num)
    · rw [if_neg hc]
      refine nonNeg_set h ?_
      show 0 ≤ (s.getD i dSlot).ruleCount - 1
      omega

/-! ### Operation-level facts -/

theorem getD_name_ne_lt {s : List Slot} {i : Nat}
    (hn : (s.getD i dSlot).name ≠ "") : i < s.length := by
  by_contra hle
  rw [getD_eq_default_of_le s i dSlot (by omega)] at hn
  exact hn rfl

theorem verifyTableIndex_valid {s : List Slot} {ti : Int}
    (h : verifyTableIndex s ti = 0) :
    0 ≤ ti ∧ ti.toNat < s.length ∧ (s.getD ti.toNat dSlot).name ≠ "" := by
  unfold verifyTableIndex at h
  by_cases hc : ti < 0 ∨ (s.length : Int) ≤ ti ∨ (s.getD ti.toNat dSlot).name = ""
  · rw [if_pos hc] at h
    cases h
  · rw [if_neg hc] at h
    push_neg at hc
    exact ⟨hc.1, by omega, hc.2.2⟩

theorem modifyRoute_add_map_name (env : ExecEnv) (iface dest : String)
    (pfx : Int) (gw : String) (i : Nat) (s : List Slot) :
    ((modifyRoute env .ADD iface dest pfx gw i s).state).map Slot.name
      = s.map Slot.name := by
  simp only [modifyRoute]
  split <;> split
  · rfl
  · rw [modifyRuleCount_add_map_name, modifyRuleCount_add_map_name]
  · rfl
  · rw [modifyRuleCount_add_map_name, modifyRuleCount_add_map_name]

theorem modifyRoute_namedInv (env : ExecEnv) (act : Action)
    (iface dest : String) (pfx : Int) (gw : String) (i : Nat)
    {s : List Slot} (h : NamedInv s)
    (hn : (s.getD i dSlot).name ≠ "") :
    NamedInv (modifyRoute env act iface dest pfx gw i s).state := by
  have key : NamedInv (modifyRuleCount (modifyRuleCount s i act) i act) := by
    cases act with
    | ADD =>
      have hlt : i < s.length := getD_name_ne_lt hn
      have h1 := namedInv_modifyRuleCount_add i h hn
      refine namedInv_modifyRuleCount_add i h1 ?_
      rw [modifyRuleCount_add_getD s i hlt]
      exact hn
    | DEL =>
      exact namedInv_modifyRuleCount_del i (namedInv_modifyRuleCount_del i h)
  simp only [modifyRoute]
  split <;> split
  · exact h
  · exact key
  · exact h
  · exact key

theorem setUidRule_state_eq (env : ExecEnv) (iface : String)
    (u1 u2 : Int) (add : Bool) (s : List Slot) :
    (setUidRule env iface u1 u2 add s).state = s := by
  unfold setUidRule
  cases hf : findTableNumber s iface with
  | none => rfl
  | some i =>
    simp only []
    split <;> split <;> rfl

theorem findTableNumber_eq_none_iff (s : List Slot) (iface : String) :
    findTableNumber s iface = none ↔
      ∀ sl ∈ s, cstrEq iface sl.name (IFNAMSIZ + 1) = false :=
  findLoop_eq_none_iff iface s

theorem findTableNumber_eq_some_iff (s : List Slot) (iface : String)
    (i : Nat) :
    findTableNumber s iface = some i ↔
      i < s.length ∧
        cstrEq iface ((s.getD i dSlot).name) (IFNAMSIZ + 1) = true ∧
        ∀ j, j < i →
          cstrEq iface ((s.getD j dSlot).name) (IFNAMSIZ + 1) = false :=
  findLoop_eq_some_iff iface s i

theorem findTableNumber_congr_names (iface : String) {s t : List Slot}
    (h : s.map Slot.name = t.map Slot.name) :
    findTableNumber s iface = findTableNumber t iface :=
  findLoop_congr_names iface h

theorem string_take_of_le (s : String) (n : Nat) (h : s.length ≤ n) :
    s.take n = s := by
  apply String.ext
  rw [String.data_take]
  exact List.take_of_length_le h

theorem length_setName (s : List Slot) (j : Nat) (iface : String) :
    (setName s j iface).length = s.length := by
  simp [setName, updateSlot]

theorem setName_getD {s : List Slot} {j : Nat} (iface : String)
    (hj : j < s.length) :
    (setName s j iface).getD j dSlot =
      ⟨iface.take IFNAMSIZ, (s.getD j dSlot).ruleCount⟩ := by
  simp only [setName, updateSlot]
  exact getD_set_self s j _ dSlot hj

theorem setName_getD_ne {s : List Slot} {j k : Nat} (iface : String)
    (hk : k ≠ j) :
    (setName s j iface).getD k dSlot = s.getD k dSlot := by
  simp only [setName, updateSlot]
  exact getD_set_ne s j k _ dSlot hk

theorem namedInv_modifyRuleCount_any {s : List Slot} (i : Nat)
    (act : Action) (h : NamedInv s)
    (hn : (s.getD i dSlot).name ≠ "") :
    NamedInv (modifyRuleCount s i act) := by
  cases act with
  | ADD => exact namedInv_modifyRuleCount_add i h hn
  | DEL => exact namedInv_modifyRuleCount_del i h

theorem nonNeg_applyCountOps :
    ∀ (ops : List (Nat × Action)) (s : List Slot), NonNeg s →
      NonNeg (applyCountOps s ops)
  | [], _, h => h
  | p :: rest, s, h => by
      have h1 := nonNeg_modifyRuleCount p.1 p.2 h
      simpa [applyCountOps] using nonNeg_applyCountOps rest _ h1

/-! ### Case analyses of the allocating operations -/

theorem addRoute_tracked (env : ExecEnv) (iface dest : String) (pfx : Int)
    (gw : String) {s : List Slot} {i : Nat}
    (htr : findTableNumber s iface = some i) :
    addRoute env iface dest pfx gw s = modifyRoute env .ADD iface dest pfx gw i s := by
  unfold addRoute
  rw [htr]

theorem addRoute_alloc (env : ExecEnv) (iface dest : String) (pfx : Int)
    (gw : String) {s : List Slot} {j : Nat}
    (hnone : findTableNumber s iface = none)
    (hfree : findTableNumber s "" = some j) :
    addRoute env iface dest pfx gw s =
      modifyRoute env .ADD iface dest pfx gw j (setName s j iface) := by
  unfold addRoute
  rw [hnone, hfree]

theorem addRoute_exhausted (env : ExecEnv) (iface dest : String) (pfx : Int)
    (gw : String) {s : List Slot}
    (hnone : findTableNumber s iface = none)
    (hfull : findTableNumber s "" = none) :
    addRoute env iface dest pfx gw s =
      { ret := -1, state := s, cmds := [],
        msg := some "Max number NATed", eno := some ENODEV } := by
  unfold addRoute
  rw [hnone, hfull]

theorem setFwmarkRule_state_tracked (env : ExecEnv) (iface : String)
    (add : Bool) {s : List Slot} {i : Nat}
    (htr : findTableNumber s iface = some i) :
    (setFwmarkRule env iface add s).state = s := by
  unfold setFwmarkRule
  rw [htr]
  simp only []
  split <;> split <;> rfl

theorem setFwmarkRule_state_alloc (env : ExecEnv) (iface : String)
    (add : Bool) {s : List Slot} {j : Nat}
    (hnone : findTableNumber s iface = none)
    (hfree : findTableNumber s "" = some j) :
    (setFwmarkRule env iface add s).state = setName s j iface := by
  unfold setFwmarkRule
  rw [hnone, hfree]
  simp only []
  split <;> split <;> rfl

theorem setFwmarkRule_exhausted (env : ExecEnv) (iface : String)
    (add : Bool) {s : List Slot}
    (hnone : findTableNumber s iface = none)
    (hfull : findTableNumber s "" = none) :
    setFwmarkRule env iface add s =
      { ret := -1, state := s, cmds := [], eno := some ENODEV } := by
  unfold setFwmarkRule
  rw [hnone, hfull]

theorem findTableNumber_full_free_none {s : List Slot}
    (hocc : ∀ sl ∈ s, sl.name ≠ "") : findTableNumber s "" = none := by
  apply (findTableNumber_eq_none_iff s "").mpr
  intro sl hsl
  cases hb : cstrEq "" sl.name (IFNAMSIZ + 1)
  · rfl
  · exact absurd ((cstrEq_empty_iff sl.name).mp hb) (hocc sl hsl)

/-! ### Claim theorems -/

/-- Claim C1 (code bug exhibited): the claim says a successful `addRoute`
changes the slot's rule count by exactly one, so a first successful
`addRoute` on a freshly allocated interface leaves `ruleCount == 1`. In the
code, `modifyRoute` updates the count twice on success — once by the block
inlined at lines 130–137 and once by the `modifyRuleCount` call at line
138 — so the first successful `addRoute` on a fresh pool of two slots
leaves the slot with `ruleCount == 2`. -/
theorem addRoute_counts_twice_on_success :
    (addRoute envOK "wlan0" "10.0.0.0" 24 "::" (initState 2)).ret = 0 ∧
    (addRoute envOK "wlan0" "10.0.0.0" 24 "::" (initState 2)).state
      = [⟨"wlan0", 2⟩, ⟨"", 0⟩] := by
  decide

/-- Claim C2 counterexample: on a pool whose only slot is `wlan0` with rule
count 1, a successful `addFwmarkRule` leaves the count at 1 (not 2), and a
successful `removeFwmarkRule` leaves the count at 1 and the slot occupied
(`findTableNumber` still finds it), contrary to the claimed increment /
decrement-and-release behaviour. -/
theorem fwmarkRule_count_cex :
    (addFwmarkRule envOK "wlan0" [⟨"wlan0", 1⟩]).ret = 0 ∧
    (addFwmarkRule envOK "wlan0" [⟨"wlan0", 1⟩]).state = [⟨"wlan0", 1⟩] ∧
    (removeFwmarkRule envOK "wlan0" [⟨"wlan0", 1⟩]).ret = 0 ∧
    (removeFwmarkRule envOK "wlan0" [⟨"wlan0", 1⟩]).state = [⟨"wlan0", 1⟩] ∧
    findTableNumber (removeFwmarkRule envOK "wlan0" [⟨"wlan0", 1⟩]).state
      "wlan0" = some 0 := by
  decide

/-- Claim C2 (amended): `setFwmarkRule` (hence `addFwmarkRule` and
`removeFwmarkRule`) never changes any slot's rule count, whatever the
environment, the interface, the direction or the pool state; in particular
`removeFwmarkRule` never releases a slot. -/
theorem setFwmarkRule_rule_counts_unchanged (env : ExecEnv) (iface : String)
    (add : Bool) (s : List Slot) :
    ((setFwmarkRule env iface add s).state).map Slot.ruleCount
      = s.map Slot.ruleCount := by
  cases hf : findTableNumber s iface with
  | some i => rw [setFwmarkRule_state_tracked env iface add hf]
  | none =>
    cases hg : findTableNumber s "" with
    | none => rw [setFwmarkRule_exhausted env iface add hf hg]
    | some j => rw [setFwmarkRule_state_alloc env iface add hf hg,
        setName_map_count]

/-- Claim C3 counterexample: the initial two-slot pool satisfies the full
occupancy invariant (name empty iff count zero), but after one successful
public operation (`addFwmarkRule` on a fresh interface) the resulting state
violates it: the allocated slot is named `wlan0` with rule count 0. -/
theorem occupancy_iff_cex :
    FullInv (initState 2) ∧
    (addFwmarkRule envOK "wlan0" (initState 2)).ret = 0 ∧
    ¬ FullInv ((addFwmarkRule envOK "wlan0" (initState 2)).state) := by
  decide

/-- Claim C3 (amended): only one direction of the occupancy invariant is
preserved: if every empty-named slot has rule count 0 and the interface
argument is non-empty, then after any of the six public operations every
empty-named slot still has rule count 0 — regardless of command success or
failure. (The converse direction, occupied implies nonzero count, is
refuted by the counterexample.) -/
theorem namedInv_preserved_by_ops (env : ExecEnv)
    (iface iface2 dest addr gw : String) (pfx u1 u2 ti : Int)
    (act : Action) (add : Bool) {s : List Slot}
    (h : NamedInv s) (hif : iface ≠ "") :
    NamedInv (addRoute env iface dest pfx gw s).state ∧
    NamedInv (removeRoute env iface dest pfx gw s).state ∧
    NamedInv (setFwmarkRule env iface add s).state ∧
    NamedInv (setUidRule env iface u1 u2 add s).state ∧
    NamedInv (modifyFromRule env ti act addr s).state ∧
    NamedInv (modifyLocalRoute env ti act iface2 addr s).state := by
  have hAdd : NamedInv (addRoute env iface dest pfx gw s).state := by
    cases hf : findTableNumber s iface with
    | some i =>
      rw [addRoute_tracked env iface dest pfx gw hf]
      have hmatch := ((findTableNumber_eq_some_iff s iface i).mp hf).2.1
      exact modifyRoute_namedInv env .ADD iface dest pfx gw i h
        (cstrEq_nonempty iface _ hif hmatch)
    | none =>
      cases hg : findTableNumber s "" with
      | none =>
        rw [addRoute_exhausted env iface dest pfx gw hf hg]
        exact h
      | some j =>
        rw [addRoute_alloc env iface dest pfx gw hf hg]
        have hjlen : j < s.length :=
          ((findTableNumber_eq_some_iff s "" j).mp hg).1
        have h1 : NamedInv (setName s j iface) := namedInv_setName j h hif
        refine modifyRoute_namedInv env .ADD iface dest pfx gw j h1 ?_
        rw [setName_getD iface hjlen, Slot.name_mk]
        exact take_IFNAMSIZ_ne_empty hif
  have hRemove : NamedInv (removeRoute env iface dest pfx gw s).state := by
    cases hf : findTableNumber s iface with
    | none =>
      unfold removeRoute
      rw [hf]
      exact h
    | some i =>
      unfold removeRoute
      rw [hf]
      have hmatch := ((findTableNumber_eq_some_iff s iface i).mp hf).2.1
      exact modifyRoute_namedInv env .DEL iface dest pfx gw i h
        (cstrEq_nonempty iface _ hif hmatch)
  have hFw : NamedInv (setFwmarkRule env iface add s).state := by
    cases hf : findTableNumber s iface with
    | some i =>
      rw [setFwmarkRule_state_tracked env iface add hf]
      exact h
    | none =>
      cases hg : findTableNumber s "" with
      | none =>
        rw [setFwmarkRule_exhausted env iface add hf hg]
        exact h
      | some j =>
        rw [setFwmarkRule_state_alloc env iface add hf hg]
        exact namedInv_setName j h hif
  have hUid : NamedInv (setUidRule env iface u1 u2 add s).state := by
    rw [setUidRule_state_eq]
    exact h
  have hFrom : NamedInv (modifyFromRule env ti act addr s).state := by
    simp only [modifyFromRule]
    by_cases hv : verifyTableIndex s ti = 0
    · rw [if_neg (fun hc => hc hv)]
      obtain ⟨-, -, hn⟩ := verifyTableIndex_valid hv
      split
      · exact h
      · exact namedInv_modifyRuleCount_any ti.toNat act h hn
    · rw [if_pos hv]
      exact h
  have hLocal : NamedInv (modifyLocalRoute env ti act iface2 addr s).state := by
    simp only [modifyLocalRoute]
    by_cases hv : verifyTableIndex s ti = 0
    · rw [if_neg (fun hc => hc hv)]
      obtain ⟨-, -, hn⟩ := verifyTableIndex_valid hv
      exact namedInv_modifyRuleCount_any ti.toNat act h hn
    · rw [if_pos hv]
      exact h
  exact ⟨hAdd, hRemove, hFw, hUid, hFrom, hLocal⟩

/-- Claim C3 amended-theorem witness: the preserved direction applied at a
concrete tracked pool with a failing environment. -/
theorem namedInv_preserved_by_ops_witness :
    NamedInv (addRoute envFail "wlan0" "10.0.0.0" 24 "::" [⟨"wlan0", 1⟩]).state ∧
    NamedInv (removeRoute envFail "wlan0" "10.0.0.0" 24 "::" [⟨"wlan0", 1⟩]).state ∧
    NamedInv (setFwmarkRule envFail "wlan0" true [⟨"wlan0", 1⟩]).state ∧
    NamedInv (setUidRule envFail "wlan0" 1000 1999 true [⟨"wlan0", 1⟩]).state ∧
    NamedInv (modifyFromRule envFail 0 .DEL "192.168.1.1" [⟨"wlan0", 1⟩]).state ∧
    NamedInv (modifyLocalRoute envFail 0 .DEL "eth0" "192.168.1.1" [⟨"wlan0", 1⟩]).state :=
  namedInv_preserved_by_ops envFail "wlan0" "eth0" "10.0.0.0" "192.168.1.1"
    "::" 24 1000 1999 0 .DEL true (by decide) (by decide)

/-- Claim C8: `removeRoute` on an untracked interface fails with the
"Interface not found" message and errno `ENODEV`, runs no external command,
and leaves the pool exactly as it was. -/
theorem removeRoute_untracked_unchanged (env : ExecEnv)
    (iface dest : String) (pfx : Int) (gw : String) (s : List Slot)
    (h : findTableNumber s iface = none) :
    removeRoute env iface dest pfx gw s =
      { ret := -1, state := s, cmds := [],
        msg := some "Interface not found", eno := some ENODEV } := by
  unfold removeRoute
  rw [h]

/-- Claim C8 witness at a concrete pool tracking only `wlan0`. -/
theorem removeRoute_untracked_unchanged_witness :
    removeRoute envOK "eth0" "10.0.0.0" 24 "::" [⟨"wlan0", 1⟩] =
      { ret := -1, state := [⟨"wlan0", 1⟩], cmds := [],
        msg := some "Interface not found", eno := some ENODEV } :=
  removeRoute_untracked_unchanged envOK "eth0" "10.0.0.0" 24 "::"
    [⟨"wlan0", 1⟩] (by decide)

/-- Claim C4: starting from a pool with non-negative rule counts, any
sequence of add/remove rule-count operations keeps every count
non-negative, and a remove on a slot whose count would drop below 1 clamps
the slot to count 0 with its name cleared (so an extra remove beyond zero
is absorbed). -/
theorem ruleCount_nonneg_clamped {s : List Slot} (h : NonNeg s) :
    (∀ ops : List (Nat × Action), NonNeg (applyCountOps s ops)) ∧
    (∀ i, (s.getD i dSlot).ruleCount ≤ 1 →
      modifyRuleCount s i .DEL = s.set i ⟨"", 0⟩) :=
  ⟨fun ops => nonNeg_applyCountOps ops s h,
    fun i hle => modifyRuleCount_del_clamp s i hle⟩

/-- Claim C4 witness: three removes on a slot holding count 1 — the two
extra removes are absorbed and no count goes negative. -/
theorem ruleCount_nonneg_clamped_witness :
    NonNeg (applyCountOps [⟨"a", 1⟩] [(0, .DEL), (0, .DEL), (0, .DEL)]) ∧
    modifyRuleCount [⟨"a", 1⟩] 0 .DEL = [⟨"a", 1⟩].set 0 ⟨"", 0⟩ :=
  ⟨(ruleCount_nonneg_clamped (s := [⟨"a", 1⟩]) (by decide)).1
      [(0, .DEL), (0, .DEL), (0, .DEL)],
    (ruleCount_nonneg_clamped (s := [⟨"a", 1⟩]) (by decide)).2 0 (by decide)⟩

/-- Claim C5: when the interface is already tracked at index `i`,
`addRoute` uses exactly index `i` without allocation, `setFwmarkRule`
leaves the pool untouched, and after `addRoute` the interface still
resolves to `i`; moreover freshly allocating (empty-name lookup followed by
the name store) makes the interface resolve to the allocated index, so the
assigned index is stable and lookup is idempotent. -/
theorem tableIndex_lookup_idempotent (env : ExecEnv) (iface dest : String)
    (pfx : Int) (gw : String) (add : Bool) (s : List Slot) (i : Nat)
    (htr : findTableNumber s iface = some i) :
    addRoute env iface dest pfx gw s
        = modifyRoute env .ADD iface dest pfx gw i s ∧
    (setFwmarkRule env iface add s).state = s ∧
    findTableNumber (addRoute env iface dest pfx gw s).state iface = some i ∧
    (∀ (t : List Slot) (j : Nat), iface.length ≤ IFNAMSIZ →
      findTableNumber t iface = none → findTableNumber t "" = some j →
      findTableNumber (setName t j iface) iface = some j) := by
  refine ⟨addRoute_tracked env iface dest pfx gw htr,
    setFwmarkRule_state_tracked env iface add htr, ?_, ?_⟩
  · rw [addRoute_tracked env iface dest pfx gw htr]
    rw [findTableNumber_congr_names iface
      (modifyRoute_add_map_name env iface dest pfx gw i s)]
    exact htr
  · intro t j hlen hnone hfree
    obtain ⟨hjlen, -, -⟩ := (findTableNumber_eq_some_iff t "" j).mp hfree
    apply (findTableNumber_eq_some_iff _ iface j).mpr
    refine ⟨by rw [length_setName]; exact hjlen, ?_, ?_⟩
    · rw [setName_getD iface hjlen, Slot.name_mk,
        string_take_of_le iface IFNAMSIZ hlen, cstrEq_iff]
    · intro k hk
      rw [setName_getD_ne iface (Nat.ne_of_lt hk)]
      have hmem := getD_mem_of_lt t k dSlot (lt_trans hk hjlen)
      exact (findTableNumber_eq_none_iff t iface).mp hnone _ hmem

/-- Claim C5 witness: `wlan0` tracked at index 0 still resolves to index 0
after another `addRoute`. -/
theorem tableIndex_lookup_idempotent_witness :
    findTableNumber
      (addRoute envOK "wlan0" "10.0.0.0" 24 "::" [⟨"wlan0", 1⟩]).state
      "wlan0" = some 0 :=
  (tableIndex_lookup_idempotent envOK "wlan0" "10.0.0.0" 24 "::" true
    [⟨"wlan0", 1⟩] 0 (by decide)).2.2.1

/-- Claim C6: on a valid occupied index, `modifyLocalRoute` leaves the pool
in exactly the state produced by the rule-count update, for every
environment — including one whose route command fails — and a remove on a
slot with count at most 1 releases the slot (name cleared, count 0) even
then. -/
theorem modifyLocalRoute_count_updated_regardless (env : ExecEnv) (ti : Int)
    (act : Action) (iface addr : String) (s : List Slot)
    (h : verifyTableIndex s ti = 0) :
    (modifyLocalRoute env ti act iface addr s).state
        = modifyRuleCount s ti.toNat act ∧
    ((s.getD ti.toNat dSlot).ruleCount ≤ 1 →
      (modifyLocalRoute env ti .DEL iface addr s).state
          = s.set ti.toNat ⟨"", 0⟩) := by
  have hcond : ¬(verifyTableIndex s ti ≠ 0) := fun hc => hc h
  constructor
  · simp only [modifyLocalRoute]
    rw [if_neg hcond]
  · intro hle
    simp only [modifyLocalRoute]
    rw [if_neg hcond]
    exact modifyRuleCount_del_clamp s ti.toNat hle

/-- Claim C6 witness: removing the last local route with a failing
environment still clears the slot. -/
theorem modifyLocalRoute_count_updated_regardless_witness :
    (modifyLocalRoute envFail 0 .DEL "wlan0" "192.168.1.1"
      [⟨"wlan0", 1⟩]).state = [⟨"wlan0", 1⟩].set 0 ⟨"", 0⟩ :=
  (modifyLocalRoute_count_updated_regardless envFail 0 .DEL "wlan0"
    "192.168.1.1" [⟨"wlan0", 1⟩] (by decide)).2 (by decide)

/-- Claim C7: `setUidRule` fails with errno `EINVAL`, performs no
allocation and issues no firewall command when the interface is untracked;
it fails with errno `EINVAL` and issues no firewall command when the
UID-mark map reports failure; and only on map success does it issue
exactly one `execIptables` command against both rule-sets, never touching
the pool. -/
theorem setUidRule_fails_without_firewall_cmd (env : ExecEnv)
    (iface : String) (u1 u2 : Int) (add : Bool) (s : List Slot) :
    (findTableNumber s iface = none →
      setUidRule env iface u1 u2 add s =
        { ret := -1, state := s, cmds := [], eno := some EINVAL }) ∧
    (∀ i, findTableNumber s iface = some i →
      (if add then env.uidMapAdd u1 u2 ((i : Int) + BASE_TABLE_NUMBER)
        else env.uidMapRemove u1 u2 ((i : Int) + BASE_TABLE_NUMBER)) = false →
      setUidRule env iface u1 u2 add s =
        { ret := -1, state := s, cmds := [], eno := some EINVAL }) ∧
    (∀ i, findTableNumber s iface = some i →
      (if add then env.uidMapAdd u1 u2 ((i : Int) + BASE_TABLE_NUMBER)
        else env.uidMapRemove u1 u2 ((i : Int) + BASE_TABLE_NUMBER)) = true →
      (setUidRule env iface u1 u2 add s).state = s ∧
      ∃ args, (setUidRule env iface u1 u2 add s).cmds
        = [Cmd.ipt .V4V6 args]) := by
  refine ⟨?_, ?_, ?_⟩
  · intro hf
    unfold setUidRule
    rw [hf]
  · intro i hf hmap
    unfold setUidRule
    rw [hf]
    simp only []
    rw [hmap]
    rfl
  · intro i hf hmap
    refine ⟨setUidRule_state_eq env iface u1 u2 add s, ?_⟩
    unfold setUidRule
    rw [hf]
    simp only []
    rw [hmap]
    exact ⟨_, rfl⟩

/-- Claim C7 witness: with the map reporting failure on a tracked
interface, `setUidRule` returns the `EINVAL` failure and issues no
command. -/
theorem setUidRule_fails_without_firewall_cmd_witness :
    setUidRule envFail "wlan0" 1000 1999 true [⟨"wlan0", 1⟩] =
      { ret := -1, state := [⟨"wlan0", 1⟩], cmds := [],
        eno := some EINVAL } :=
  (setUidRule_fails_without_firewall_cmd envFail "wlan0" 1000 1999 true
    [⟨"wlan0", 1⟩]).2.1 0 (by decide) (by decide)

/-- Claim C9: when every slot is occupied and the interface is untracked,
`addRoute` fails with the "Max number NATed" message and errno `ENODEV`,
`setFwmarkRule` fails with errno `ENODEV`, and in both cases no command is
issued and every existing slot (name and count) is left unchanged. -/
theorem allocation_exhausted_unchanged (env : ExecEnv)
    (iface dest : String) (pfx : Int) (gw : String) (add : Bool)
    (s : List Slot) (hocc : ∀ sl ∈ s, sl.name ≠ "")
    (hnew : findTableNumber s iface = none) :
    addRoute env iface dest pfx gw s =
      { ret := -1, state := s, cmds := [],
        msg := some "Max number NATed", eno := some ENODEV } ∧
    setFwmarkRule env iface add s =
      { ret := -1, state := s, cmds := [], eno := some ENODEV } := by
  have hfull := findTableNumber_full_free_none hocc
  exact ⟨addRoute_exhausted env iface dest pfx gw hnew hfull,
    setFwmarkRule_exhausted env iface add hnew hfull⟩

/-- Claim C9 witness: a full two-slot pool rejects a third interface and
stays unchanged. -/
theorem allocation_exhausted_unchanged_witness :
    addRoute envOK "rmnet0" "10.0.0.0" 24 "::" [⟨"wlan0", 1⟩, ⟨"eth0", 2⟩] =
      { ret := -1, state := [⟨"wlan0", 1⟩, ⟨"eth0", 2⟩],
        cmds := [], msg := some "Max number NATed", eno := some ENODEV } ∧
    setFwmarkRule envOK "rmnet0" true [⟨"wlan0", 1⟩, ⟨"eth0", 2⟩] =
      { ret := -1, state := [⟨"wlan0", 1⟩, ⟨"eth0", 2⟩], cmds := [],
        eno := some ENODEV } :=
  allocation_exhausted_unchanged envOK "rmnet0" "10.0.0.0" 24 "::" true
    [⟨"wlan0", 1⟩, ⟨"eth0", 2⟩] (by decide) (by decide)

/-- Claim C10: `findTableNumber` returns an index exactly when it is the
smallest slot index matching the argument through the `IFNAMSIZ + 1`-byte
comparison, and in particular the empty-string lookup used for allocation
returns exactly the lowest-numbered free slot. -/
theorem findTableNumber_lowest_index (s : List Slot) (iface : String)
    (i : Nat) :
    (findTableNumber s iface = some i ↔
      i < s.length ∧
        cstrEq iface ((s.getD i dSlot).name) (IFNAMSIZ + 1) = true ∧
        ∀ j, j < i →
          cstrEq iface ((s.getD j dSlot).name) (IFNAMSIZ + 1) = false) ∧
    (findTableNumber s "" = some i ↔
      i < s.length ∧ (s.getD i dSlot).name = "" ∧
        ∀ j, j < i → (s.getD j dSlot).name ≠ "") := by
  constructor
  · exact findTableNumber_eq_some_iff s iface i
  · rw [findTableNumber_eq_some_iff s "" i]
    constructor
    · rintro ⟨h1, h2, h3⟩
      refine ⟨h1, (cstrEq_empty_iff _).mp h2, ?_⟩
      intro j hj hempty
      have htrue := (cstrEq_empty_iff ((s.getD j dSlot).name)).mpr hempty
      rw [h3 j hj] at htrue
      exact Bool.false_ne_true htrue
    · rintro ⟨h1, h2, h3⟩
      refine ⟨h1, (cstrEq_empty_iff _).mpr h2, ?_⟩
      intro j hj
      cases hb : cstrEq "" ((s.getD j dSlot).name) (IFNAMSIZ + 1)
      · rfl
      · exact absurd ((cstrEq_empty_iff _).mp hb) (h3 j hj)

/-- Claim C10 witness: on a pool whose slot 0 is taken, the free-slot
lookup returns index 1, the lowest free slot. -/
theorem findTableNumber_lowest_index_witness :
    findTableNumber [⟨"wlan0", 1⟩, ⟨"", 0⟩, ⟨"", 0⟩] "" = some 1 :=
  ((findTableNumber_lowest_index [⟨"wlan0", 1⟩, ⟨"", 0⟩, ⟨"", 0⟩] "x" 1).2).mpr
    ⟨by decide, by decide, by decide⟩

end SecondaryTable
